import Mathlib

/-!
Verification of the `HttpDate` value type from `src/header/shared/httpdate.rs`.

The Rust source defines `HttpDate(time::Tm)` with:
  * `FromStr` trying `time::strptime` with `"%a, %d %b %Y %T %Z"`, then
    `"%A, %d-%b-%y %T %Z"`, then `"%c"`, mapping any failure to `Error::Header`;
  * `Display` printing `self.0.to_utc().rfc822()`;
  * `From<SystemTime>` building a `time::Timespec` from
    `duration_since(UNIX_EPOCH)` (negating seconds and nanoseconds for
    pre-epoch instants) and calling `time::at_utc`;
  * `From<HttpDate>` taking `to_timespec()` and computing
    `UNIX_EPOCH + Duration::new(sec as u64, nsec as u32)` when `sec >= 0` and
    `UNIX_EPOCH - Duration::new(sec as u64, nsec as u32)` otherwise.

The `time` 0.1 crate itself is an external collaborator that is not part of
this repository; the spec treats it as a black box supplying pattern-based
parsing, UTC normalization, RFC-5322-style rendering and epoch arithmetic.
Those collaborator functions are modelled below from the spec's description
of them; each such definition carries a `Modelled from the spec` note.
Machine integers are modelled as `Int` with explicit two's-complement casts.
-/

/-- Rust `as u64` cast of an integer value (two's-complement wrap into `[0, 2^64)`). -/
def toU64 (i : Int) : Int := i % 2 ^ 64

/-- Rust `as i64` cast (two's-complement wrap into `[-2^63, 2^63)`). -/
def toI64 (i : Int) : Int := (i + 2 ^ 63) % 2 ^ 64 - 2 ^ 63

/-- Rust `as u32` cast (two's-complement wrap into `[0, 2^32)`). -/
def toU32 (i : Int) : Int := i % 2 ^ 32

/-- Rust `as i32` cast (two's-complement wrap into `[-2^31, 2^31)`). -/
def toI32 (i : Int) : Int := (i + 2 ^ 31) % 2 ^ 32 - 2 ^ 31

/-- Modelled from the spec: the external calendar library's conversion from a
proleptic-Gregorian civil date to a count of days since the epoch
(1970-01-01).  `m` is 1-based (1 = January). -/
def daysFromCivil (y m d : Int) : Int :=
  let yy := y - (if m ≤ 2 then 1 else 0)
  let era := yy / 400
  let yoe := yy - era * 400
  let doy := (153 * (m + (if 2 < m then -3 else 9)) + 2) / 5 + d - 1
  era * 146097 + 146097 * (yoe / 100) / 4 + 1461 * (yoe % 100) / 4 + doy - 719468

/-- Modelled from the spec: the external calendar library's conversion from a
count of days since the epoch to the civil date (year, month, day) containing
it. -/
def civilFromDays (z : Int) : Int × Int × Int :=
  let zz := z + 719468
  let era := zz / 146097
  let doe := zz % 146097
  let c := (4 * doe + 3) / 146097
  let dayC := (4 * doe + 3) % 146097 / 4
  let yc := (4 * dayC + 3) / 1461
  let doy := (4 * dayC + 3) % 1461 / 4
  let yoe := 100 * c + yc
  let mp := (5 * doy + 2) / 153
  let d := doy - (153 * mp + 2) / 5 + 1
  let m := mp + (if mp < 10 then 3 else -9)
  (yoe + era * 400 + (if m ≤ 2 then 1 else 0), m, d)

theorem cfd_level1 (doe : Int) (h0 : 0 ≤ doe) (h1 : doe ≤ 146096) :
    0 ≤ (4 * doe + 3) / 146097 ∧ (4 * doe + 3) / 146097 ≤ 3 ∧
    0 ≤ (4 * doe + 3) % 146097 / 4 ∧ (4 * doe + 3) % 146097 / 4 ≤ 36524 ∧
    doe = 146097 * ((4 * doe + 3) / 146097) / 4 + (4 * doe + 3) % 146097 / 4 := by
  omega

theorem cfd_level2 (dayC : Int) (h0 : 0 ≤ dayC) (h1 : dayC ≤ 36524) :
    0 ≤ (4 * dayC + 3) / 1461 ∧ (4 * dayC + 3) / 1461 ≤ 99 ∧
    0 ≤ (4 * dayC + 3) % 1461 / 4 ∧ (4 * dayC + 3) % 1461 / 4 ≤ 365 ∧
    dayC = 1461 * ((4 * dayC + 3) / 1461) / 4 + (4 * dayC + 3) % 1461 / 4 := by
  omega

theorem cfd_era (doe c dayC yc doy yoe : Int) (h0 : 0 ≤ doe) (h1 : doe ≤ 146096)
    (hc : c = (4 * doe + 3) / 146097)
    (hdayC : dayC = (4 * doe + 3) % 146097 / 4)
    (hyc : yc = (4 * dayC + 3) / 1461)
    (hdoy : doy = (4 * dayC + 3) % 1461 / 4)
    (hyoe : yoe = 100 * c + yc) :
    0 ≤ yoe ∧ yoe ≤ 399 ∧ 0 ≤ doy ∧ doy ≤ 365 ∧
    146097 * (yoe / 100) / 4 + 1461 * (yoe % 100) / 4 + doy = doe := by
  have l1 := cfd_level1 doe h0 h1
  rw [← hc, ← hdayC] at l1
  have l2 := cfd_level2 dayC l1.2.2.1 l1.2.2.2.1
  rw [← hyc, ← hdoy] at l2
  have hj : yoe / 100 = c := by omega
  have hjm : yoe % 100 = yc := by omega
  rw [hj, hjm]
  omega

theorem cfd_month (doy mp d m : Int) (_h0 : 0 ≤ doy) (_h1 : doy ≤ 365)
    (hmp : mp = (5 * doy + 2) / 153)
    (hd : d = doy - (153 * mp + 2) / 5 + 1)
    (hm : m = mp + (if mp < 10 then 3 else -9)) :
    1 ≤ m ∧ m ≤ 12 ∧ 1 ≤ d ∧ d ≤ 31 ∧
    (153 * (m + (if 2 < m then -3 else 9)) + 2) / 5 + d - 1 = doy := by
  subst hm
  split_ifs <;> omega

theorem cfd_outer (z era doe yoe doy mp d m : Int)
    (hz : z + 719468 = era * 146097 + doe)
    (_h0 : 0 ≤ doe) (_h1 : doe ≤ 146096)
    (hyoe0 : 0 ≤ yoe) (hyoe1 : yoe ≤ 399)
    (hdoy0 : 0 ≤ doy) (hdoy1 : doy ≤ 365)
    (hrec : 146097 * (yoe / 100) / 4 + 1461 * (yoe % 100) / 4 + doy = doe)
    (hmp : mp = (5 * doy + 2) / 153)
    (hd : d = doy - (153 * mp + 2) / 5 + 1)
    (hm : m = mp + (if mp < 10 then 3 else -9)) :
    daysFromCivil (yoe + era * 400 + (if m ≤ 2 then 1 else 0)) m d = z := by
  have hmonth := cfd_month doy mp d m hdoy0 hdoy1 hmp hd hm
  simp only [daysFromCivil]
  split_ifs at hm hmonth ⊢
  all_goals simp only [add_sub_cancel_right, add_zero, sub_zero]
  all_goals rw [(by omega : (yoe + era * 400) / 400 = era)]
  all_goals rw [(by ring : yoe + era * 400 - era * 400 = yoe)]
  all_goals omega

/-- The two calendar conversions are mutually inverse: recomposing the civil
date of any day count yields that day count back. -/
theorem days_civil_inv (z : Int) :
    daysFromCivil (civilFromDays z).1 (civilFromDays z).2.1 (civilFromDays z).2.2 = z := by
  have hdoe0 : 0 ≤ (z + 719468) % 146097 := by omega
  have hdoe1 : (z + 719468) % 146097 ≤ 146096 := by omega
  have hera := cfd_era ((z + 719468) % 146097) _ _ _ _ _ hdoe0 hdoe1 rfl rfl rfl rfl rfl
  simp only [civilFromDays]
  exact cfd_outer z ((z + 719468) / 146097) ((z + 719468) % 146097) _ _ _ _ _
    (by omega) hdoe0 hdoe1 hera.1 hera.2.1 hera.2.2.1 hera.2.2.2.1 hera.2.2.2.2
    rfl rfl rfl

/-- The broken-down calendar time of the external `time` crate (`time::Tm`),
all fields `i32`.  `tm_year` counts from 1900, `tm_mon` is 0-based. -/
structure Tm where
  tm_sec : Int
  tm_min : Int
  tm_hour : Int
  tm_mday : Int
  tm_mon : Int
  tm_year : Int
  tm_wday : Int
  tm_yday : Int
  tm_isdst : Int
  tm_utcoff : Int
  tm_nsec : Int
deriving DecidableEq, Repr

/-- The external `time::Timespec`: signed whole seconds since the epoch plus a
nanoseconds component (`i64` and `i32` in the source). -/
structure Timespec where
  sec : Int
  nsec : Int
deriving DecidableEq, Repr

/-- Modelled from the spec: `time::at_utc` interprets a (seconds, nanoseconds)
pair as a UTC calendar instant; the nanoseconds component is carried into
`tm_nsec` unchanged and `tm_utcoff` is zero. -/
def at_utc (ts : Timespec) : Tm :=
  let days := ts.sec / 86400
  let sod := ts.sec % 86400
  let c := civilFromDays days
  { tm_sec := sod % 60
    tm_min := sod / 60 % 60
    tm_hour := sod / 3600
    tm_mday := c.2.2
    tm_mon := c.2.1 - 1
    tm_year := c.1 - 1900
    tm_wday := (days + 4) % 7
    tm_yday := days - daysFromCivil c.1 1 1
    tm_isdst := 0
    tm_utcoff := 0
    tm_nsec := ts.nsec }

/-- Modelled from the spec: the seconds-since-epoch of a UTC broken-down time
(the core of `time::Tm::to_timespec`). -/
def utcTmToSec (tm : Tm) : Int :=
  daysFromCivil (tm.tm_year + 1900) (tm.tm_mon + 1) tm.tm_mday * 86400 +
    tm.tm_hour * 3600 + tm.tm_min * 60 + tm.tm_sec

/-- Modelled from the spec: `time::Tm::to_timespec` extracts the
(seconds, nanoseconds) pair of a calendar instant, adjusting for the stored
UTC offset. -/
def Tm.to_timespec (tm : Tm) : Timespec :=
  { sec := utcTmToSec tm - tm.tm_utcoff, nsec := tm.tm_nsec }

/-- Modelled from the spec: `time::Tm::to_utc` normalizes a calendar instant
to UTC; a value already at UTC offset zero is left unchanged. -/
def Tm.to_utc (tm : Tm) : Tm :=
  if tm.tm_utcoff = 0 then tm else at_utc tm.to_timespec

/-- Round-trip at the `Timespec` level: re-extracting the pair from the UTC
calendar instant of any (seconds, nanoseconds) pair is the identity. -/
theorem to_timespec_at_utc (ts : Timespec) : (at_utc ts).to_timespec = ts := by
  obtain ⟨sec, nsec⟩ := ts
  have hinv := days_civil_inv (sec / 86400)
  simp only [at_utc, Tm.to_timespec, utcTmToSec, sub_add_cancel]
  rw [Timespec.mk.injEq]
  constructor
  · rw [hinv]
    omega
  · rfl

/-- Rust std `Duration`: `u64` whole seconds plus nanoseconds in `[0, 10^9)`. -/
structure Duration where
  secs : Int
  nanos : Int
deriving DecidableEq, Repr

/-- `Duration::new(secs, nanos)` carries whole seconds out of `nanos` and
panics — modelled as `none` — if the seconds count overflows `u64`. -/
def Duration.new (secs nanos : Int) : Option Duration :=
  if secs + nanos / 1000000000 < 2 ^ 64 then
    some { secs := secs + nanos / 1000000000, nanos := nanos % 1000000000 }
  else none

/-- Smallest `SystemTime` offset from the epoch, in nanoseconds: the platform
stores `i64` seconds with nanoseconds in `[0, 10^9)`. -/
def sysTimeMin : Int := -(2 ^ 63) * 1000000000

/-- Largest `SystemTime` offset from the epoch, in nanoseconds. -/
def sysTimeMax : Int := (2 ^ 63 - 1) * 1000000000 + 999999999

/-- `SystemTime + Duration`: `none` models the panic on overflow of the
platform timestamp.  A `SystemTime` is modelled as its signed nanosecond
offset from `UNIX_EPOCH`. -/
def sysAddDur (t : Int) (d : Duration) : Option Int :=
  let r := t + (d.secs * 1000000000 + d.nanos)
  if sysTimeMin ≤ r ∧ r ≤ sysTimeMax then some r else none

/-- `SystemTime - Duration`: `none` models the panic on overflow. -/
def sysSubDur (t : Int) (d : Duration) : Option Int :=
  let r := t - (d.secs * 1000000000 + d.nanos)
  if sysTimeMin ≤ r ∧ r ≤ sysTimeMax then some r else none

/-- The `HttpDate` newtype over `time::Tm` (src line 31). -/
structure HttpDate where
  tm : Tm
deriving DecidableEq, Repr

/-- The `time::Timespec` built by `From<SystemTime> for HttpDate` (src lines
55-64): `Timespec::new(dur.as_secs() as i64, dur.subsec_nanos() as i32)` for
instants at or after the epoch, and
`Timespec::new(-(neg.as_secs() as i64), -(neg.subsec_nanos() as i32))` for
instants before it (unary minus modelled with release-mode wrapping). -/
def httpTmspec (t : Int) : Timespec :=
  if 0 ≤ t then
    { sec := toI64 (t / 1000000000), nsec := toI32 (t % 1000000000) }
  else
    { sec := toI64 (-toI64 ((-t) / 1000000000)), nsec := toI32 (-toI32 ((-t) % 1000000000)) }

/-- `From<SystemTime> for HttpDate` (src lines 53-66). -/
def httpDateFromSys (t : Int) : HttpDate := { tm := at_utc (httpTmspec t) }

/-- `From<HttpDate> for SystemTime` (src lines 68-77).  Note that both
branches of the source build `Duration::new(spec.sec as u64, spec.nsec as u32)`
from the raw (possibly negative) components. -/
def systemTimeFromHttpDate (d : HttpDate) : Option Int :=
  let spec := d.tm.to_timespec
  if 0 ≤ spec.sec then
    (Duration.new (toU64 spec.sec) (toU32 spec.nsec)).bind (sysAddDur 0)
  else
    (Duration.new (toU64 spec.sec) (toU32 spec.nsec)).bind (sysSubDur 0)

/-- Modelled from the spec: "if seconds is non-negative, the machine time is
epoch plus that duration; if seconds is negative, the machine time is epoch
minus the duration formed from the absolute values of the seconds and
nanoseconds components".  Stated only to compare with
`systemTimeFromHttpDate`. -/
def systemTimeFromHttpDateSpec (d : HttpDate) : Int :=
  let s := d.tm.to_timespec
  if 0 ≤ s.sec then s.sec * 1000000000 + s.nsec
  else -((s.sec.natAbs : Int) * 1000000000 + (s.nsec.natAbs : Int))

theorem toU64_eq_self (x : Int) (h0 : 0 ≤ x) (h1 : x < 2 ^ 64) : toU64 x = x := by
  unfold toU64
  omega

theorem toU32_eq_self (x : Int) (h0 : 0 ≤ x) (h1 : x < 2 ^ 32) : toU32 x = x := by
  unfold toU32
  omega

theorem toI64_eq_self (x : Int) (h0 : -(2 ^ 63) ≤ x) (h1 : x < 2 ^ 63) : toI64 x = x := by
  unfold toI64
  omega

theorem toI32_eq_self (x : Int) (h0 : -(2 ^ 31) ≤ x) (h1 : x < 2 ^ 31) : toI32 x = x := by
  unfold toI32
  omega

theorem httpTmspec_nonneg (t : Int) (h0 : 0 ≤ t) (h1 : t ≤ sysTimeMax) :
    httpTmspec t = { sec := t / 1000000000, nsec := t % 1000000000 } := by
  unfold httpTmspec
  rw [if_pos h0]
  rw [toI64_eq_self _ (by omega) (by simp only [sysTimeMax] at h1; omega)]
  rw [toI32_eq_self _ (by omega) (by omega)]

/-- Claim C10: for every `SystemTime` at or after the epoch, converting to
`HttpDate` and back preserves the instant exactly, at nanosecond precision. -/
theorem c10_roundtrip_nanos (t : Int) (h0 : 0 ≤ t) (h1 : t ≤ sysTimeMax) :
    systemTimeFromHttpDate (httpDateFromSys t) = some t := by
  have hspec : (httpDateFromSys t).tm.to_timespec =
      { sec := t / 1000000000, nsec := t % 1000000000 } := by
    rw [show (httpDateFromSys t).tm = at_utc (httpTmspec t) from rfl,
      to_timespec_at_utc, httpTmspec_nonneg t h0 h1]
  simp only [sysTimeMax] at h1
  simp only [systemTimeFromHttpDate, hspec]
  rw [toU64_eq_self _ (by omega) (by omega), toU32_eq_self _ (by omega) (by omega)]
  simp only [Duration.new, sysAddDur, sysTimeMin, sysTimeMax]
  rw [if_pos (show (0:Int) ≤ t / 1000000000 by omega)]
  rw [if_pos (show t / 1000000000 + t % 1000000000 / 1000000000 < 2 ^ 64 by omega)]
  dsimp only [Option.bind]
  split_ifs with h
  · exact congrArg some (by omega)
  · exact absurd ⟨by omega, by omega⟩ h

/-- Witness for C10, at one day plus 123456789 nanoseconds past the epoch. -/
theorem c10_roundtrip_nanos_witness :
    systemTimeFromHttpDate (httpDateFromSys 86400123456789) = some 86400123456789 :=
  c10_roundtrip_nanos 86400123456789 (by decide) (by decide)

set_option maxRecDepth 100000 in
/-- Claim C1 (code bug): for the `HttpDate` one day before the epoch
(whose calendar instant extracts to seconds `-86400`, nanoseconds `0`), the
spec-mandated result is the epoch minus 86400 seconds, but the code's
`spec.sec as u64` cast turns `-86400` into `2^64 - 86400`, so the
subtraction from the epoch overflows — modelled as `none` — instead of
returning that instant. -/
theorem c1_pre_epoch_cast_bug :
    (httpDateFromSys (-86400000000000)).tm.to_timespec = { sec := -86400, nsec := 0 } ∧
    systemTimeFromHttpDateSpec (httpDateFromSys (-86400000000000)) = -86400000000000 ∧
    systemTimeFromHttpDate (httpDateFromSys (-86400000000000)) = none := by
  decide

set_option maxRecDepth 100000 in
/-- Claim C2 (code bug): the conversion `HttpDate → SystemTime` is not total.
At the ordinary date 23:59:59 on 31 Dec 1969 (one second before the epoch)
it overflows and panics, modelled as `none`. -/
theorem c2_conversion_not_total :
    (httpDateFromSys (-1000000000)).tm.to_timespec = { sec := -1, nsec := 0 } ∧
    systemTimeFromHttpDate (httpDateFromSys (-1000000000)) = none := by
  decide

set_option maxRecDepth 100000 in
/-- Claim C3 (code bug): the `SystemTime → HttpDate → SystemTime` round trip
is the identity at the epoch and at one day after the epoch, but at one day
before the epoch the conversion back overflows (modelled as `none`) instead
of returning the original instant. -/
theorem c3_roundtrip_epoch_neighborhood :
    systemTimeFromHttpDate (httpDateFromSys 0) = some 0 ∧
    systemTimeFromHttpDate (httpDateFromSys 86400000000000) = some 86400000000000 ∧
    systemTimeFromHttpDate (httpDateFromSys (-86400000000000)) = none := by
  decide

set_option maxRecDepth 100000 in
/-- Claim C8 counterexample: half a second before the epoch the code stores a
zero — not negative — seconds count. -/
theorem c8_subsecond_counterexample :
    (-500000000 : Int) < 0 ∧ ¬ (httpTmspec (-500000000)).sec < 0 := by
  decide

/-- Claim C8 (amended): for instants strictly before the epoch the conversion
stores the negated whole-seconds count — zero, not negative, within the first
second before the epoch, and strictly negative from one full second onwards —
paired with the negated (non-positive) nanoseconds component, and wraps the
pair as a UTC calendar instant; at or after the epoch both components are
non-negative. -/
theorem c8_sign_convention :
    (∀ t : Int, sysTimeMin ≤ t → t < 0 →
      (httpTmspec t).sec ≤ 0 ∧ (httpTmspec t).nsec ≤ 0 ∧
      (httpTmspec t).nsec = -(-t % 1000000000) ∧
      (sysTimeMin < t → (httpTmspec t).sec = -(-t / 1000000000)) ∧
      (t ≤ -1000000000 → (httpTmspec t).sec < 0) ∧
      httpDateFromSys t = { tm := at_utc (httpTmspec t) }) ∧
    (∀ t : Int, 0 ≤ t → t ≤ sysTimeMax →
      0 ≤ (httpTmspec t).sec ∧ 0 ≤ (httpTmspec t).nsec) := by
  constructor
  · intro t hmin hneg
    have hns : ¬ (0:Int) ≤ t := by omega
    have hsec : (httpTmspec t).sec = toI64 (-toI64 (-t / 1000000000)) := by
      simp only [httpTmspec, if_neg hns]
    have hnsec : (httpTmspec t).nsec = toI32 (-toI32 (-t % 1000000000)) := by
      simp only [httpTmspec, if_neg hns]
    simp only [sysTimeMin] at hmin
    refine ⟨?_, ?_, ?_, ?_, ?_, rfl⟩
    · rw [hsec]; simp only [toI64]; omega
    · rw [hnsec]; simp only [toI32]; omega
    · rw [hnsec]; simp only [toI32]; omega
    · intro hlt
      simp only [sysTimeMin] at hlt
      rw [hsec]; simp only [toI64]; omega
    · intro hle
      rw [hsec]; simp only [toI64]; omega
  · intro t h0 h1
    simp only [sysTimeMax] at h1
    simp only [httpTmspec, if_pos h0, toI64, toI32]
    exact ⟨by omega, by omega⟩

/-- Witness for C8: one day before the epoch the stored seconds count is
negative, and half a second after the epoch both components are
non-negative. -/
theorem c8_sign_convention_witness :
    (httpTmspec (-86400000000000)).sec ≤ 0 ∧ 0 ≤ (httpTmspec 500000000).sec := by
  constructor
  · exact (c8_sign_convention.1 (-86400000000000) (by decide) (by decide)).1
  · exact (c8_sign_convention.2 500000000 (by decide) (by decide)).1

/-- Claim C9: every `HttpDate` obtained from a `SystemTime` carries a calendar
instant already at UTC offset zero, so the UTC normalization performed by
formatting leaves its calendar fields unchanged. -/
theorem c9_from_sys_is_utc (t : Int) :
    (httpDateFromSys t).tm.tm_utcoff = 0 ∧
    (httpDateFromSys t).tm.to_utc = (httpDateFromSys t).tm := by
  exact ⟨rfl, rfl⟩

/-- The hyper error enum (`::Error`) that `FromStr for HttpDate` maps its
failures into; its `Header` variant is the single "malformed header"
classification.  Modelled from the spec: the enum is declared outside the
verified source file, which only ever produces `Header`. -/
inductive HError where
  | Method
  | Uri
  | Version
  | Header
  | TooLarge
  | Status
deriving DecidableEq, Repr

/-- The seven numeric fields a successful `strptime` of one of the three
HTTP date formats fills in. -/
structure ParsedFields where
  wday : Int
  mday : Int
  mon : Int
  year : Int
  hour : Int
  minute : Int
  second : Int
deriving DecidableEq, Repr

/-- Modelled from the spec: the `Tm` a successful `strptime` produces —
parsed fields plus zero defaults (`tm_yday`, `tm_isdst`, `tm_utcoff` and
`tm_nsec` stay 0, matching the source's own `NOV_07` test constant; `%Z`
with GMT/UTC keeps offset 0). -/
def ParsedFields.toTm (f : ParsedFields) : Tm :=
  { tm_sec := f.second
    tm_min := f.minute
    tm_hour := f.hour
    tm_mday := f.mday
    tm_mon := f.mon
    tm_year := f.year
    tm_wday := f.wday
    tm_yday := 0
    tm_isdst := 0
    tm_utcoff := 0
    tm_nsec := 0 }

/-- Value of an ASCII digit. -/
def digitVal (c : Char) : Option Nat :=
  if '0' ≤ c ∧ c ≤ '9' then some (c.toNat - 48) else none

/-- Consume an exact literal sequence of characters. -/
def takeLit : List Char → List Char → Option (List Char)
  | [], l => some l
  | _ :: _, [] => none
  | p :: ps, c :: cs => if c = p then takeLit ps cs else none

/-- Try each name in turn, returning its index and the rest of the input. -/
def matchNameFrom : List (List Char) → Nat → List Char → Option (Nat × List Char)
  | [], _, _ => none
  | n :: ns, i, l =>
    match takeLit n l with
    | some rest => some (i, rest)
    | none => matchNameFrom ns (i + 1) l

def wdayAbbrNames : List (List Char) :=
  ["Sun", "Mon", "Tue", "Wed", "Thu", "Fri", "Sat"].map String.toList

def wdayFullNames : List (List Char) :=
  ["Sunday", "Monday", "Tuesday", "Wednesday", "Thursday", "Friday",
    "Saturday"].map String.toList

def monthAbbrNames : List (List Char) :=
  ["Jan", "Feb", "Mar", "Apr", "May", "Jun", "Jul", "Aug", "Sep", "Oct",
    "Nov", "Dec"].map String.toList

/-- Exactly two ASCII digits. -/
def parse2Digits (l : List Char) : Option (Nat × List Char) :=
  match l with
  | c1 :: c2 :: rest =>
    match digitVal c1, digitVal c2 with
    | some a, some b => some (10 * a + b, rest)
    | _, _ => none
  | _ => none

/-- Exactly four ASCII digits. -/
def parse4Digits (l : List Char) : Option (Nat × List Char) :=
  match l with
  | c1 :: c2 :: c3 :: c4 :: rest =>
    match digitVal c1, digitVal c2, digitVal c3, digitVal c4 with
    | some a, some b, some c, some d => some (1000 * a + 100 * b + 10 * c + d, rest)
    | _, _, _, _ => none
  | _ => none

/-- A day-of-month field padded with a space instead of a zero when it has a
single digit (asctime style: `" 7"` or `"17"`). -/
def parseSpacePaddedDay (l : List Char) : Option (Nat × List Char) :=
  match l with
  | ' ' :: c2 :: rest =>
    match digitVal c2 with
    | some b => some (b, rest)
    | none => none
  | c1 :: c2 :: rest =>
    match digitVal c1, digitVal c2 with
    | some a, some b => some (10 * a + b, rest)
    | _, _ => none
  | _ => none

/-- `%T`: `HH:MM:SS` with the usual field ranges (leap second allowed). -/
def parseHMS (l : List Char) : Option (Nat × Nat × Nat × List Char) := do
  let (h, l1) ← parse2Digits l
  let l2 ← takeLit [':'] l1
  let (mi, l3) ← parse2Digits l2
  let l4 ← takeLit [':'] l3
  let (s, l5) ← parse2Digits l4
  if h ≤ 23 ∧ mi ≤ 59 ∧ s ≤ 60 then some (h, mi, s, l5) else none

/-- `%Z` restricted to the zero-offset tokens the grammar admits. -/
def parseZone (l : List Char) : Option (List Char) :=
  match takeLit ("GMT".toList) l with
  | some r => some r
  | none => takeLit ("UTC".toList) l

/-- Modelled from the spec: `strptime` with `"%a, %d %b %Y %T %Z"`
(IMF-fixdate, e.g. `Sun, 06 Nov 1994 08:49:37 GMT`). -/
def parseImfFixdate (l : List Char) : Option ParsedFields := do
  let (w, l1) ← matchNameFrom wdayAbbrNames 0 l
  let l2 ← takeLit (", ".toList) l1
  let (d, l3) ← parse2Digits l2
  let l4 ← takeLit [' '] l3
  let (mo, l5) ← matchNameFrom monthAbbrNames 0 l4
  let l6 ← takeLit [' '] l5
  let (y, l7) ← parse4Digits l6
  let l8 ← takeLit [' '] l7
  let (h, mi, s, l9) ← parseHMS l8
  let l10 ← takeLit [' '] l9
  let l11 ← parseZone l10
  if l11 = [] ∧ 1 ≤ d ∧ d ≤ 31 then
    some { wday := (w : Int), mday := (d : Int), mon := (mo : Int),
           year := (y : Int) - 1900, hour := (h : Int), minute := (mi : Int),
           second := (s : Int) }
  else none

/-- Modelled from the spec: the two-digit-year windowing for `%y` is
inherited from the underlying library's undocumented convention; the POSIX
windowing (69-99 maps to 19xx, 00-68 to 20xx) is used here. -/
def twoDigitYear (y : Nat) : Int := if y < 69 then (y : Int) + 100 else (y : Int)

/-- Modelled from the spec: `strptime` with `"%A, %d-%b-%y %T %Z"`
(obsolete RFC 850 form, e.g. `Sunday, 06-Nov-94 08:49:37 GMT`). -/
def parseRfc850 (l : List Char) : Option ParsedFields := do
  let (w, l1) ← matchNameFrom wdayFullNames 0 l
  let l2 ← takeLit (", ".toList) l1
  let (d, l3) ← parse2Digits l2
  let l4 ← takeLit ['-'] l3
  let (mo, l5) ← matchNameFrom monthAbbrNames 0 l4
  let l6 ← takeLit ['-'] l5
  let (y2, l7) ← parse2Digits l6
  let l8 ← takeLit [' '] l7
  let (h, mi, s, l9) ← parseHMS l8
  let l10 ← takeLit [' '] l9
  let l11 ← parseZone l10
  if l11 = [] ∧ 1 ≤ d ∧ d ≤ 31 then
    some { wday := (w : Int), mday := (d : Int), mon := (mo : Int),
           year := twoDigitYear y2, hour := (h : Int), minute := (mi : Int),
           second := (s : Int) }
  else none

/-- Modelled from the spec: `strptime` with `"%c"` (ANSI C asctime form,
e.g. `Sun Nov  6 08:49:37 1994`; no zone token, implicitly GMT). -/
def parseAsctime (l : List Char) : Option ParsedFields := do
  let (w, l1) ← matchNameFrom wdayAbbrNames 0 l
  let l2 ← takeLit [' '] l1
  let (mo, l3) ← matchNameFrom monthAbbrNames 0 l2
  let l4 ← takeLit [' '] l3
  let (d, l5) ← parseSpacePaddedDay l4
  let l6 ← takeLit [' '] l5
  let (h, mi, s, l7) ← parseHMS l6
  let l8 ← takeLit [' '] l7
  let (y, l9) ← parse4Digits l8
  if l9 = [] ∧ 1 ≤ d ∧ d ≤ 31 then
    some { wday := (w : Int), mday := (d : Int), mon := (mo : Int),
           year := (y : Int) - 1900, hour := (h : Int), minute := (mi : Int),
           second := (s : Int) }
  else none

/-- First `strptime` attempt of `FromStr for HttpDate` (src line 36). -/
def strptime1 (s : String) : Option Tm := (parseImfFixdate s.toList).map ParsedFields.toTm

/-- Second `strptime` attempt (src line 37). -/
def strptime2 (s : String) : Option Tm := (parseRfc850 s.toList).map ParsedFields.toTm

/-- Third `strptime` attempt (src line 39). -/
def strptime3 (s : String) : Option Tm := (parseAsctime s.toList).map ParsedFields.toTm

/-- `impl FromStr for HttpDate` (src lines 33-45): the three formats are
tried in order via `or_else`, the first success wins, and any failure maps
to `Error::Header`. -/
def from_str (s : String) : Except HError HttpDate :=
  match strptime1 s with
  | some t => .ok { tm := t }
  | none =>
    match strptime2 s with
    | some t => .ok { tm := t }
    | none =>
      match strptime3 s with
      | some t => .ok { tm := t }
      | none => .error .Header

/-- Three-letter weekday names used by the renderer. -/
def wdayDisplayName (w : Int) : String :=
  ["Sun", "Mon", "Tue", "Wed", "Thu", "Fri", "Sat"].getD w.toNat "???"

/-- Three-letter month names used by the renderer. -/
def monthDisplayName (m : Int) : String :=
  ["Jan", "Feb", "Mar", "Apr", "May", "Jun", "Jul", "Aug", "Sep", "Oct",
    "Nov", "Dec"].getD m.toNat "???"

/-- Zero-padded two-digit rendering. -/
def pad2 (n : Int) : String := if n < 10 then "0" ++ toString n else toString n

/-- Modelled from the spec: `Tm::rfc822`, the RFC 5322-style renderer —
three-letter weekday, comma, two-digit day, three-letter month, four-digit
year, zero-padded `HH:MM:SS`, literal zone token. -/
def rfc822 (tm : Tm) : String :=
  wdayDisplayName tm.tm_wday ++ ", " ++ pad2 tm.tm_mday ++ " " ++
    monthDisplayName tm.tm_mon ++ " " ++ toString (tm.tm_year + 1900) ++ " " ++
    pad2 tm.tm_hour ++ ":" ++ pad2 tm.tm_min ++ ":" ++ pad2 tm.tm_sec ++ " GMT"

/-- `impl Display for HttpDate` (src lines 47-51): `self.0.to_utc().rfc822()`. -/
def displayHttpDate (d : HttpDate) : String := rfc822 d.tm.to_utc

/-- Modelled from the spec: equality of `HttpDate`s is "defined by the
underlying calendar-instant value" — two dates are equivalent when their
extracted (seconds, nanoseconds) pairs agree. -/
def httpDateEqv (a b : HttpDate) : Prop := a.tm.to_timespec = b.tm.to_timespec

/-- Modelled from the spec: the strict chronological order on the underlying
calendar-instant values. -/
def httpDateLt (a b : HttpDate) : Prop :=
  a.tm.to_timespec.sec < b.tm.to_timespec.sec ∨
    (a.tm.to_timespec.sec = b.tm.to_timespec.sec ∧
      a.tm.to_timespec.nsec < b.tm.to_timespec.nsec)

/-- The instant a date denotes, in nanoseconds relative to the epoch. -/
def instantNanos (d : HttpDate) : Int :=
  d.tm.to_timespec.sec * 1000000000 + d.tm.to_timespec.nsec

/-- The second a date denotes (whole seconds relative to the epoch). -/
def denotedSecond (d : HttpDate) : Int := d.tm.to_timespec.sec

instance decEqExceptHErrorHttpDate : DecidableEq (Except HError HttpDate) := fun a b =>
  match a, b with
  | .ok x, .ok y =>
    if h : x = y then isTrue (by rw [h]) else isFalse (fun hh => h (Except.ok.inj hh))
  | .error x, .error y =>
    if h : x = y then isTrue (by rw [h]) else isFalse (fun hh => h (Except.error.inj hh))
  | .ok _, .error _ => isFalse (fun hh => Except.noConfusion hh)
  | .error _, .ok _ => isFalse (fun hh => Except.noConfusion hh)

theorem map_toTm_some {o : Option ParsedFields} {t : Tm}
    (h : o.map ParsedFields.toTm = some t) : ∃ f, o = some f ∧ t = f.toTm := by
  cases o with
  | none => simp at h
  | some f =>
    refine ⟨f, rfl, ?_⟩
    simpa using h.symm

/-- Any successfully parsed date has zero `tm_nsec` and zero `tm_utcoff`. -/
theorem from_str_ok_fields (s : String) (d : HttpDate) (h : from_str s = .ok d) :
    d.tm.tm_nsec = 0 ∧ d.tm.tm_utcoff = 0 := by
  unfold from_str at h
  cases e1 : strptime1 s with
  | some t =>
    simp only [e1] at h
    cases h
    unfold strptime1 at e1
    obtain ⟨f, _, ht⟩ := map_toTm_some e1
    subst ht
    exact ⟨rfl, rfl⟩
  | none =>
    simp only [e1] at h
    cases e2 : strptime2 s with
    | some t =>
      simp only [e2] at h
      cases h
      unfold strptime2 at e2
      obtain ⟨f, _, ht⟩ := map_toTm_some e2
      subst ht
      exact ⟨rfl, rfl⟩
    | none =>
      simp only [e2] at h
      cases e3 : strptime3 s with
      | some t =>
        simp only [e3] at h
        cases h
        unfold strptime3 at e3
        obtain ⟨f, _, ht⟩ := map_toTm_some e3
        subst ht
        exact ⟨rfl, rfl⟩
      | none =>
        simp only [e3] at h
        exact absurd h (by simp)

theorem timespecExt {a b : Timespec} (h1 : a.sec = b.sec) (h2 : a.nsec = b.nsec) : a = b := by
  cases a
  cases b
  simp_all

/-- The `Tm` of 07 Nov 1994, 08:48:37 GMT as parsed from the three test
strings; identical to the source's own `NOV_07` test constant. -/
def nov07Tm : Tm :=
  { tm_sec := 37, tm_min := 48, tm_hour := 8, tm_mday := 7, tm_mon := 10,
    tm_year := 94, tm_wday := 0, tm_yday := 0, tm_isdst := 0, tm_utcoff := 0,
    tm_nsec := 0 }

/-- The `Tm` of 06 Nov 1994, 08:49:37 GMT (the RFC 7231 example date). -/
def nov06Tm : Tm :=
  { tm_sec := 37, tm_min := 49, tm_hour := 8, tm_mday := 6, tm_mon := 10,
    tm_year := 94, tm_wday := 0, tm_yday := 0, tm_isdst := 0, tm_utcoff := 0,
    tm_nsec := 0 }

/-- Claim C4: for two successfully parsed dates, chronological precedence of
the denoted instants implies the value ordering. -/
theorem c4_parsed_ordering (sa sb : String) (a b : HttpDate)
    (ha : from_str sa = .ok a) (hb : from_str sb = .ok b)
    (hlt : instantNanos a < instantNanos b) : httpDateLt a b := by
  have fa := from_str_ok_fields sa a ha
  have fb := from_str_ok_fields sb b hb
  have hna : a.tm.to_timespec.nsec = 0 := fa.1
  have hnb : b.tm.to_timespec.nsec = 0 := fb.1
  unfold instantNanos at hlt
  rw [hna, hnb] at hlt
  unfold httpDateLt
  exact Or.inl (by omega)

set_option maxRecDepth 100000 in
/-- Witness for C4: the parsed 06 Nov 1994 08:49:37 precedes the parsed
07 Nov 1994 08:48:37. -/
theorem c4_parsed_ordering_witness : httpDateLt { tm := nov06Tm } { tm := nov07Tm } :=
  c4_parsed_ordering "Sun, 06 Nov 1994 08:49:37 GMT" "Sun, 07 Nov 1994 08:48:37 GMT"
    { tm := nov06Tm } { tm := nov07Tm } (by decide) (by decide) (by decide)

set_option maxRecDepth 100000 in
/-- Claim C5: the three textual forms of 07 Nov 1994 08:48:37 GMT all parse
successfully and compare equal, and parsed dates are equal exactly when they
denote the same second. -/
theorem c5_equality_by_instant :
    (∃ a b c : HttpDate,
      from_str "Sun, 07 Nov 1994 08:48:37 GMT" = .ok a ∧
      from_str "Sunday, 07-Nov-94 08:48:37 GMT" = .ok b ∧
      from_str "Sun Nov  7 08:48:37 1994" = .ok c ∧
      httpDateEqv a b ∧ httpDateEqv b c) ∧
    (∀ sa sb a b, from_str sa = .ok a → from_str sb = .ok b →
      (httpDateEqv a b ↔ denotedSecond a = denotedSecond b)) := by
  constructor
  · exact ⟨{ tm := nov07Tm }, { tm := nov07Tm }, { tm := nov07Tm },
      by decide, by decide, by decide, rfl, rfl⟩
  · intro sa sb a b ha hb
    have fa := from_str_ok_fields sa a ha
    have fb := from_str_ok_fields sb b hb
    have hna : a.tm.to_timespec.nsec = 0 := fa.1
    have hnb : b.tm.to_timespec.nsec = 0 := fb.1
    constructor
    · intro h
      unfold httpDateEqv at h
      unfold denotedSecond
      rw [h]
    · intro h
      unfold denotedSecond at h
      unfold httpDateEqv
      exact timespecExt h (by rw [hna, hnb])

set_option maxRecDepth 100000 in
/-- Witness for C5, applying the equality criterion to the IMF-fixdate and
RFC 850 parses of the same instant. -/
theorem c5_equality_by_instant_witness :
    httpDateEqv { tm := nov07Tm } { tm := nov07Tm } ↔
      denotedSecond { tm := nov07Tm } = denotedSecond { tm := nov07Tm } :=
  c5_equality_by_instant.2 "Sun, 07 Nov 1994 08:48:37 GMT"
    "Sunday, 07-Nov-94 08:48:37 GMT" { tm := nov07Tm } { tm := nov07Tm }
    (by decide) (by decide)

set_option maxRecDepth 100000 in
/-- Claim C6: parsing tries the three formats strictly in order, the first
success wins, every failure is the single generic `Header` error, and
`"this-is-no-date"` fails with that error. -/
theorem c6_parse_order_and_error :
    (∀ s t, strptime1 s = some t → from_str s = .ok { tm := t }) ∧
    (∀ s t, strptime1 s = none → strptime2 s = some t → from_str s = .ok { tm := t }) ∧
    (∀ s t, strptime1 s = none → strptime2 s = none → strptime3 s = some t →
      from_str s = .ok { tm := t }) ∧
    (∀ s, strptime1 s = none → strptime2 s = none → strptime3 s = none →
      from_str s = .error .Header) ∧
    (∀ s e, from_str s = .error e → e = .Header) ∧
    from_str "this-is-no-date" = .error .Header := by
  refine ⟨?_, ?_, ?_, ?_, ?_, by decide⟩
  · intro s t h
    unfold from_str
    rw [h]
  · intro s t h1 h2
    unfold from_str
    rw [h1, h2]
  · intro s t h1 h2 h3
    unfold from_str
    rw [h1, h2, h3]
  · intro s h1 h2 h3
    unfold from_str
    rw [h1, h2, h3]
  · intro s e h
    unfold from_str at h
    cases e1 : strptime1 s with
    | some t =>
      rw [e1] at h
      exact absurd h (by simp)
    | none =>
      rw [e1] at h
      cases e2 : strptime2 s with
      | some t =>
        rw [e2] at h
        exact absurd h (by simp)
      | none =>
        rw [e2] at h
        cases e3 : strptime3 s with
        | some t =>
          rw [e3] at h
          exact absurd h (by simp)
        | none =>
          rw [e3] at h
          exact (Except.error.inj h).symm

set_option maxRecDepth 100000 in
/-- Witness for C6: the IMF-fixdate parse succeeds on the first attempt and
`from_str` returns exactly it. -/
theorem c6_parse_order_and_error_witness :
    from_str "Sun, 07 Nov 1994 08:48:37 GMT" = .ok { tm := nov07Tm } :=
  c6_parse_order_and_error.1 "Sun, 07 Nov 1994 08:48:37 GMT" nov07Tm (by decide)

set_option maxRecDepth 100000 in
/-- Claim C7: formatting always normalizes to UTC and renders the canonical
IMF-fixdate shape, and each of the three parsed forms of 07 Nov 1994
08:48:37 GMT formats back to exactly `"Sun, 07 Nov 1994 08:48:37 GMT"`. -/
theorem c7_display_canonical :
    (∀ d : HttpDate, displayHttpDate d = rfc822 d.tm.to_utc) ∧
    (∀ d : HttpDate, displayHttpDate d =
      wdayDisplayName d.tm.to_utc.tm_wday ++ ", " ++ pad2 d.tm.to_utc.tm_mday ++ " " ++
        monthDisplayName d.tm.to_utc.tm_mon ++ " " ++
        toString (d.tm.to_utc.tm_year + 1900) ++ " " ++
        pad2 d.tm.to_utc.tm_hour ++ ":" ++ pad2 d.tm.to_utc.tm_min ++ ":" ++
        pad2 d.tm.to_utc.tm_sec ++ " GMT") ∧
    (∃ a, from_str "Sun, 07 Nov 1994 08:48:37 GMT" = .ok a ∧
      displayHttpDate a = "Sun, 07 Nov 1994 08:48:37 GMT") ∧
    (∃ b, from_str "Sunday, 07-Nov-94 08:48:37 GMT" = .ok b ∧
      displayHttpDate b = "Sun, 07 Nov 1994 08:48:37 GMT") ∧
    (∃ c, from_str "Sun Nov  7 08:48:37 1994" = .ok c ∧
      displayHttpDate c = "Sun, 07 Nov 1994 08:48:37 GMT") := by
  refine ⟨fun d => rfl, fun d => rfl,
    ⟨{ tm := nov07Tm }, by decide, by decide⟩,
    ⟨{ tm := nov07Tm }, by decide, by decide⟩,
    ⟨{ tm := nov07Tm }, by decide, by decide⟩⟩
